import Mathlib

/-!
Verification development for the neural CLF-QP controller repository
(`neural_clf/controllers/clf_uK_qp_net.py`, `neural_clf/training/quad9d_robust_clf_qp.py`).

Conventions of the shallow embedding:
* torch tensors of reals are embedded as `Fin n → ℝ` (states, weight rows) or
  `List ℝ` (control vectors, per-scenario lists), with batches as `List`s;
* `torch.tanh` is `Real.tanh`; `F.relu` is `max · 0`; `tensor.mean()` is sum / length;
* the cvxpylayers QP solve (a third-party black box, per the spec an opaque
  "solve + backpropagate" primitive) is an explicit function argument `qpSol`
  mapping the bound parameter values to the returned `(u, relaxations)`;
* Python `print` is I/O and does not enter the returned values, so the embedded
  loss functions carry the `print_loss` flag without reading it.
-/

namespace NeuralCLF

/-- `F.relu` on a scalar. -/
noncomputable def relu (x : ℝ) : ℝ := max x 0

/-- `tensor.mean()` over a list of scalars (sum divided by length). -/
noncomputable def mean (l : List ℝ) : ℝ := l.sum / l.length

/-- Boolean-mask indexing `x[mask]` of a batch. -/
def maskSelect {α : Type} (xs : List α) (mask : List Bool) : List α :=
  ((xs.zip mask).filter (fun p => p.2)).map (fun p => p.1)

/-- Dot product of two control-space vectors represented as lists. -/
noncomputable def listDot (a b : List ℝ) : ℝ := (List.zipWith (fun u v => u * v) a b).sum

/-- Source `d_tanh_dx(tanh) = torch.diag_embed(1 - tanh**2)`: the diagonal entry of the
tanh-layer Jacobian as a function of the layer's activated output `t`. -/
noncomputable def d_tanh_dx (t : ℝ) : ℝ := 1 - t ^ 2

/-- Weights of the two Lyapunov layers `Vfc_layer_1 : Linear(n_input, n_hidden)` and
`Vfc_layer_2 : Linear(n_hidden, n_hidden)`. -/
structure VWeights (n nh : ℕ) where
  W1 : Fin nh → Fin n → ℝ
  b1 : Fin nh → ℝ
  W2 : Fin nh → Fin nh → ℝ
  b2 : Fin nh → ℝ

/-- `Vfc1_act = tanh(self.Vfc_layer_1(x))`. -/
noncomputable def Vfc1_act {n nh : ℕ} (w : VWeights n nh) (x : Fin n → ℝ) (i : Fin nh) : ℝ :=
  Real.tanh ((∑ j, w.W1 i j * x j) + w.b1 i)

/-- `Vfc2_act = tanh(self.Vfc_layer_2(Vfc1_act))`. -/
noncomputable def Vfc2_act {n nh : ℕ} (w : VWeights n nh) (x : Fin n → ℝ) (k : Fin nh) : ℝ :=
  Real.tanh ((∑ i, w.W2 k i * Vfc1_act w x i) + w.b2 k)

/-- `V = 0.5 * (Vfc2_act * Vfc2_act).sum(1)` (per batch element). -/
noncomputable def lyapV {n nh : ℕ} (w : VWeights n nh) (x : Fin n → ℝ) : ℝ :=
  0.5 * ∑ k, Vfc2_act w x k * Vfc2_act w x k

/-- `DVfc1_act = torch.matmul(d_tanh_dx(Vfc1_act), self.Vfc_layer_1.weight)`:
Jacobian of the first layer with respect to the input. -/
noncomputable def DVfc1_act {n nh : ℕ} (w : VWeights n nh) (x : Fin n → ℝ)
    (i : Fin nh) (j : Fin n) : ℝ :=
  d_tanh_dx (Vfc1_act w x i) * w.W1 i j

/-- `DVfc2_act = bmm(matmul(d_tanh_dx(Vfc2_act), self.Vfc_layer_2.weight), DVfc1_act)`. -/
noncomputable def DVfc2_act {n nh : ℕ} (w : VWeights n nh) (x : Fin n → ℝ)
    (k : Fin nh) (j : Fin n) : ℝ :=
  ∑ i, d_tanh_dx (Vfc2_act w x k) * w.W2 k i * DVfc1_act w x i j

/-- `grad_V = bmm(Vfc2_act.unsqueeze(1), DVfc2_act)` (a row vector per batch element). -/
noncomputable def grad_V {n nh : ℕ} (w : VWeights n nh) (x : Fin n → ℝ) (j : Fin n) : ℝ :=
  ∑ k, Vfc2_act w x k * DVfc2_act w x k j

/-- `CLF_K_QP_Net.compute_lyapunov`: returns the value and the analytic gradient. -/
noncomputable def compute_lyapunov {n nh : ℕ} (w : VWeights n nh) (x : Fin n → ℝ) :
    ℝ × (Fin n → ℝ) :=
  (lyapV w x, grad_V w x)

/-- Weights of the two gain sub-networks `K1fc_layer_1/2` and `K2fc_layer_1/2`
(each `Linear(n_input, n_hidden)` then `Linear(n_hidden, n_input)`). -/
structure KWeights (n nh : ℕ) where
  K1W1 : Fin nh → Fin n → ℝ
  K1b1 : Fin nh → ℝ
  K1W2 : Fin n → Fin nh → ℝ
  K1b2 : Fin n → ℝ
  K2W1 : Fin nh → Fin n → ℝ
  K2b1 : Fin nh → ℝ
  K2W2 : Fin n → Fin nh → ℝ
  K2b2 : Fin n → ℝ

/-- The embedded `CLF_K_QP_Net` (constructor arguments plus the attributes set by
`__init__`).  The dynamics oracle returns the drift `f` and the columns of the input
matrix `g` (one column per control input); `u_nominal` is the oracle nominal controller.
`u_eq` is stored transposed, and is typed over `Fin 2` because the broadcast
`-1.0 * bmm(K, x - x_goal) + u_eq` in `compute_controls` produces exactly two rows. -/
structure CLF_K_QP_Net (n nh : ℕ) (S : Type) where
  dynamics : S → (Fin n → ℝ) → (Fin n → ℝ) × List (Fin n → ℝ)
  u_nominal : S → (Fin n → ℝ) → List ℝ
  scenarios : List S
  nominal_scenario : S
  x_goal : Fin n → ℝ
  u_eq : Fin 2 → ℝ
  vW : VWeights n nh
  kW : KWeights n nh
  n_controls : ℕ
  clf_lambda : ℝ
  clf_relaxation_penalty : ℝ
  G_u : List (List ℝ)
  h_u : List ℝ
  use_QP : Bool

/-- Row produced by the first gain sub-network:
`K1 = self.K1fc_layer_2(tanh(self.K1fc_layer_1(x)))` (a vector of `n_input` entries). -/
noncomputable def K1row {n nh : ℕ} {S : Type} (net : CLF_K_QP_Net n nh S)
    (x : Fin n → ℝ) (i : Fin n) : ℝ :=
  (∑ h, net.kW.K1W2 i h *
    Real.tanh ((∑ j, net.kW.K1W1 h j * x j) + net.kW.K1b1 h)) + net.kW.K1b2 i

/-- Row produced by the second gain sub-network (`K2`). -/
noncomputable def K2row {n nh : ℕ} {S : Type} (net : CLF_K_QP_Net n nh S)
    (x : Fin n → ℝ) (i : Fin n) : ℝ :=
  (∑ h, net.kW.K2W2 i h *
    Real.tanh ((∑ j, net.kW.K2W1 h j * x j) + net.kW.K2b1 h)) + net.kW.K2b2 i

/-- `K = torch.stack((K1, K2), dim=1)`: the gain matrix as its list of rows. -/
noncomputable def Kmat {n nh : ℕ} {S : Type} (net : CLF_K_QP_Net n nh S)
    (x : Fin n → ℝ) : List (Fin n → ℝ) :=
  [K1row net x, K2row net x]

/-- `CLF_K_QP_Net.compute_controls`:
`-1.0 * torch.bmm(K, (x - self.x_goal).unsqueeze(-1)) + self.u_eq` per batch element. -/
noncomputable def compute_controls {n nh : ℕ} {S : Type} (net : CLF_K_QP_Net n nh S)
    (x : Fin n → ℝ) : List ℝ :=
  List.zipWith (fun row ueq => -1 * (∑ j, row j * (x j - net.x_goal j)) + ueq)
    (Kmat net x) [net.u_eq 0, net.u_eq 1]

/-- The parameter values bound to the QP layer on a forward call
(`*L_f_Vs, *L_g_Vs, V, u_learned, relaxation penalty`), per batch element. -/
structure QPInputs where
  L_f_Vs : List ℝ
  L_g_Vs : List (List ℝ)
  V : ℝ
  u_nom : List ℝ
  penalty : ℝ

/-- The constraint system assembled in `CLF_K_QP_Net.__init__` (lines 117-124):
for each scenario `i`, `L_f_Vs[i] + L_g_Vs[i] @ u + clf_lambda * V - r[i] <= 0` and
`r[i] >= 0`, plus `G_u @ u <= h_u` when a control-bound matrix was supplied
(`len(self.G_u) > 0`).  Out-of-range indices read the padding defaults. -/
def qpConstraintsOk (lam : ℝ) (Gu : List (List ℝ)) (hu : List ℝ)
    (LfVs : List ℝ) (LgVs : List (List ℝ)) (V : ℝ) (u rs : List ℝ) : Prop :=
  (∀ i, i < LfVs.length →
    LfVs.getD i 0 + listDot (LgVs.getD i []) u + lam * V - rs.getD i 0 ≤ 0 ∧
      0 ≤ rs.getD i 0) ∧
  (Gu ≠ [] → ∀ k, k < Gu.length → listDot (Gu.getD k []) u ≤ hu.getD k 0)

/-- The QP objective assembled in `__init__` (lines 126-131):
`sum_squares(u - u_nominal)` plus `penalty * r` summed over the relaxations. -/
noncomputable def qpObjective (uNom : List ℝ) (penalty : ℝ) (u rs : List ℝ) : ℝ :=
  (List.zipWith (fun a b => (a - b) ^ 2) u uNom).sum + (rs.map (fun r => penalty * r)).sum

/-- `CLF_K_QP_Net.forward` on a single batch element.  `qpSol` stands for the
cvxpylayers solve of the QP built at construction, returning `(u, relaxations)`; the
source accumulates the relaxations and scenario-wise relu terms as
`rs[0] + rs[1] + ...` divided by `n_scenarios`, written here as sum / length. -/
noncomputable def forward1 {n nh : ℕ} {S : Type} (net : CLF_K_QP_Net n nh S)
    (qpSol : QPInputs → List ℝ × List ℝ) (x : Fin n → ℝ) : List ℝ × ℝ × ℝ × ℝ :=
  let V := lyapV net.vW x
  let gV := grad_V net.vW x
  let u_learned := compute_controls net x
  let LfVs := net.scenarios.map (fun s => ∑ j, gV j * (net.dynamics s x).1 j)
  let LgVs := net.scenarios.map
    (fun s => (net.dynamics s x).2.map (fun col => ∑ j, gV j * col j))
  let ur :=
    if net.use_QP then qpSol ⟨LfVs, LgVs, V, u_learned, net.clf_relaxation_penalty⟩
    else (u_learned, net.scenarios.map (fun _ => 0))
  let Vdot := (List.zipWith
    (fun lf lg => relu (lf + listDot lg ur.1 + net.clf_lambda * V)) LfVs LgVs).sum /
      (net.scenarios.length : ℝ)
  let relaxation := ur.2.sum / (net.scenarios.length : ℝ)
  (ur.1, relaxation, V, Vdot)

/-- `CLF_K_QP_Net.forward` on a batch: per-element tuples `(u, relaxation, V, Vdot)`. -/
noncomputable def forward {n nh : ℕ} {S : Type} (net : CLF_K_QP_Net n nh S)
    (qpSol : QPInputs → List ℝ × List ℝ) (xs : List (Fin n → ℝ)) :
    List (List ℝ × ℝ × ℝ × ℝ) :=
  xs.map (forward1 net qpSol)

/-- One explicit-Euler step `x + timestep * (f + g @ u)` used by the simulated
descent term of `lyapunov_loss`. -/
noncomputable def eulerStep {n : ℕ} (timestep : ℝ) (x : Fin n → ℝ)
    (fg : (Fin n → ℝ) × List (Fin n → ℝ)) (u : List ℝ) : Fin n → ℝ :=
  fun j => x j + timestep * (fg.1 j + (List.zipWith (fun uc col => uc * col j) u fg.2).sum)

/-- `lyapunov_loss` (clf_uK_qp_net.py lines 250-330).  The terms follow the source:
goal term, safe/unsafe sublevel-set terms (added only when the masked batch is
non-empty, mirroring the `nelement() > 0` guards), simulated and QP-predicted descent
terms, and the mean relaxation.  The tuning term is computed by the source but its
addition to the loss is commented out, so it does not appear here.  `print_loss` only
drives diagnostic printing (I/O) and never enters the returned value. -/
noncomputable def lyapunov_loss {n nh : ℕ} {S : Type} (net : CLF_K_QP_Net n nh S)
    (qpSol : QPInputs → List ℝ × List ℝ) (xs xgoal : List (Fin n → ℝ))
    (safe_mask unsafe_mask : List Bool) (clf_lambda safe_level timestep : ℝ)
    (print_loss : Bool) : ℝ :=
  let goal_term := mean (xgoal.map (fun xg => relu (lyapV net.vW xg) ^ 2))
  let safe_terms := (maskSelect xs safe_mask).map
    (fun xv => 100 * relu (lyapV net.vW xv - safe_level))
  let unsafe_terms := (maskSelect xs unsafe_mask).map
    (fun xv => 100 * relu (safe_level - lyapV net.vW xv))
  let fwd := forward net qpSol xs
  let descent_sim := List.zipWith
    (fun x t => (net.scenarios.map (fun s =>
      relu (lyapV net.vW (eulerStep timestep x (net.dynamics s x) t.1) -
        (1 - clf_lambda * timestep) * t.2.2.1))).sum) xs fwd
  goal_term +
    (if safe_terms ≠ [] then mean safe_terms else 0) +
    (if unsafe_terms ≠ [] then mean unsafe_terms else 0) +
    (mean descent_sim + mean (fwd.map (fun t => t.2.2.2))) +
    mean (fwd.map (fun t => t.2.1))

/-- `controller_loss` (clf_uK_qp_net.py lines 333-363).  `u_learned` is the control
returned by `net(x)`; the three branches follow `use_nominal` / `use_eq` / plain
magnitude.  The `use_eq` branch evaluates the oracle nominal controller on the
supplied states (the source broadcasts a singleton batch; here the batch is zipped
elementwise).  `print_loss` only drives diagnostic printing and never enters the
returned value. -/
noncomputable def controller_loss {n nh : ℕ} {S : Type} (net : CLF_K_QP_Net n nh S)
    (qpSol : QPInputs → List ℝ × List ℝ) (xs : List (Fin n → ℝ))
    (print_loss use_nominal : Bool) (use_eq : Option (List (Fin n → ℝ)))
    (loss_coeff : ℝ) : ℝ :=
  let u_learned := (forward net qpSol xs).map (fun t => t.1)
  let sqErr :=
    if use_nominal then
      List.zipWith (fun x u => loss_coeff *
        (List.zipWith (fun a b => (a - b) ^ 2)
          (net.u_nominal net.nominal_scenario x) u).sum) xs u_learned
    else
      match use_eq with
      | some xeq =>
        List.zipWith (fun ue u => loss_coeff *
          (List.zipWith (fun a b => (a - b) ^ 2) ue u).sum)
          (xeq.map (net.u_nominal net.nominal_scenario)) u_learned
      | none => u_learned.map (fun u => loss_coeff * (u.map (fun a => a ^ 2)).sum)
  mean sqErr

/-- Errors raised by the assertions in `CLF_K_QP_Net.__init__`, in source order:
`assert len(scenarios) > 0` (line 51), `assert G_u.size(0) == h_u.size(0)` (line 74),
`assert problem.is_dpp()` (line 135). -/
inductive InitError where
  | emptyScenarios : InitError
  | dimMismatch : InitError
  | notDPP : InitError
deriving DecidableEq

/-- `CLF_K_QP_Net.__init__` as a checked constructor.  `is_dpp` stands for cvxpy's
`problem.is_dpp()` verdict on the assembled problem (a third-party check, abstracted
as the boolean it returns).  On success the attributes are stored as in the source,
including `self.use_QP = True` (line 79). -/
def CLF_K_QP_Net.init {n nh : ℕ} {S : Type}
    (dynamics : S → (Fin n → ℝ) → (Fin n → ℝ) × List (Fin n → ℝ))
    (u_nominal : S → (Fin n → ℝ) → List ℝ)
    (scenarios : List S) (nominal_scenario : S)
    (x_goal : Fin n → ℝ) (u_eq : Fin 2 → ℝ)
    (vW : VWeights n nh) (kW : KWeights n nh)
    (n_controls : ℕ) (clf_lambda clf_relaxation_penalty : ℝ)
    (G_u : List (List ℝ)) (h_u : List ℝ) (is_dpp : Bool) :
    Except InitError (CLF_K_QP_Net n nh S) :=
  if scenarios.isEmpty then .error .emptyScenarios
  else if G_u.length ≠ h_u.length then .error .dimMismatch
  else if is_dpp = false then .error .notDPP
  else .ok
    { dynamics := dynamics, u_nominal := u_nominal, scenarios := scenarios,
      nominal_scenario := nominal_scenario, x_goal := x_goal, u_eq := u_eq,
      vW := vW, kW := kW, n_controls := n_controls, clf_lambda := clf_lambda,
      clf_relaxation_penalty := clf_relaxation_penalty, G_u := G_u, h_u := h_u,
      use_QP := true }

/-!  Model of the training script `quad9d_robust_clf_qp.py`: the network attributes
that the script reads or writes around the epoch loop. -/

/-- The network attributes relevant to the schedule: the constructor-stored
`self.clf_relaxation_penalty` (read by `forward`), the separate Python attribute
`relaxation_penalty` (written by the schedule; absent until first assigned, hence an
`Option`), and the `use_QP` toggle. -/
structure ScriptNetAttrs where
  use_QP : Bool
  clf_relaxation_penalty : ℝ
  relaxation_penalty : Option ℝ

/-- Hyperparameter `relaxation_penalty = 10.0` (training script line 112). -/
noncomputable def relaxation_penalty_init : ℝ := 10

/-- Attributes right after `CLF_QP_Net(...)` construction (the constructor stores the
penalty in `self.clf_relaxation_penalty` and sets `self.use_QP = True`, as in
`CLF_K_QP_Net.__init__` lines 73 and 79). -/
noncomputable def constructedNetAttrs : ScriptNetAttrs :=
  { use_QP := true
    clf_relaxation_penalty := relaxation_penalty_init
    relaxation_penalty := none }

/-- Attributes after the script's setup: `clf_net.use_QP = False` (line 151). -/
noncomputable def scriptNetAfterSetup : ScriptNetAttrs :=
  { constructedNetAttrs with use_QP := false }

/-- `adjust_relaxation_penalty(clf_net, epoch)` (training script lines 134-136):
computes `relaxation_penalty * (2 ** (epoch // 2))` and assigns it to the attribute
`clf_net.relaxation_penalty`. -/
noncomputable def adjust_relaxation_penalty (s : ScriptNetAttrs) (epoch : ℕ) :
    ScriptNetAttrs :=
  { s with relaxation_penalty := some (relaxation_penalty_init * 2 ^ (epoch / 2)) }

/-- The attributes in effect during epoch `e`: each epoch begins with
`adjust_relaxation_penalty(clf_net, epoch)` (line 165), and nothing else in the loop
body assigns any of these attributes. -/
noncomputable def netAttrsDuringEpoch : ℕ → ScriptNetAttrs
  | 0 => adjust_relaxation_penalty scriptNetAfterSetup 0
  | e + 1 => adjust_relaxation_penalty (netAttrsDuringEpoch e) (e + 1)

/-- The relaxation-penalty value `forward` binds to the QP layer:
`torch.tensor([self.clf_relaxation_penalty])` (clf_uK_qp_net.py line 225). -/
noncomputable def penaltyBoundInForward (s : ScriptNetAttrs) : ℝ :=
  s.clf_relaxation_penalty

/-- The `print_loss` argument the script passes to both losses in the held-out
evaluation (training script lines 221-222): `print_loss=True`. -/
def testEvalPrintLoss : Bool := true

/-!  Concrete instances used to evaluate the embedded code at specific inputs. -/

/-- A 1-state, 1-hidden-unit Lyapunov weight assignment: identity weights, inner bias 0,
outer bias 1. -/
noncomputable def cV : VWeights 1 1 :=
  { W1 := fun _ _ => 1, b1 := fun _ => 0, W2 := fun _ _ => 1, b2 := fun _ => 1 }

/-- All-zero gain-network weights (so the learned gain matrix is zero). -/
noncomputable def cK : KWeights 1 1 :=
  { K1W1 := fun _ _ => 0, K1b1 := fun _ => 0, K1W2 := fun _ _ => 0, K1b2 := fun _ => 0,
    K2W1 := fun _ _ => 0, K2b1 := fun _ => 0, K2W2 := fun _ _ => 0, K2b2 := fun _ => 0 }

/-- The value of `grad_V` produced by `cV` at the origin: `tanh 1 * (1 - tanh 1 ^ 2)`. -/
noncomputable def cGamma : ℝ := Real.tanh 1 * (1 - Real.tanh 1 ^ 2)

/-- The probe state: the origin of the 1-dimensional state space. -/
noncomputable def cx : Fin 1 → ℝ := fun _ => 0

/-- A concrete network: one scenario, zero drift, input columns scaled by `cGamma⁻¹`
so that the Lie derivative `L_g V` at `cx` is `[1, 0]`, goal at the origin,
equilibrium control `(1, 0)`, `clf_lambda = 0`, relaxation penalty 4, QP enabled. -/
noncomputable def cNet : CLF_K_QP_Net 1 1 Unit :=
  { dynamics := fun _ _ => (fun _ => 0, [fun _ => cGamma⁻¹, fun _ => 0])
    u_nominal := fun _ _ => [1, 0]
    scenarios := [()]
    nominal_scenario := ()
    x_goal := fun _ => 0
    u_eq := ![1, 0]
    vW := cV
    kW := cK
    n_controls := 2
    clf_lambda := 0
    clf_relaxation_penalty := 4
    G_u := []
    h_u := []
    use_QP := true }

/-- The same network with the QP bypassed (`use_QP = False`). -/
noncomputable def cNetNoQP : CLF_K_QP_Net 1 1 Unit := { cNet with use_QP := false }

/-- The solution cvxpylayers returns on `cNet`'s QP instance at `cx`
(`u = (0,0)`, `r = 0`); its optimality for the bound parameter values is proved in
`cQpSol_optimal` below. -/
noncomputable def cQpSol : QPInputs → List ℝ × List ℝ := fun _ => ([0, 0], [0])

/-!  Theorems. -/

/-- Dotting any list against a zero control vector gives zero. -/
theorem listDot_replicate_zero (l : List ℝ) (m : ℕ) :
    listDot l (List.replicate m 0) = 0 := by
  induction l generalizing m with
  | nil => simp [listDot]
  | cons a t ih =>
    cases m with
    | zero => simp [listDot]
    | succ m =>
      simp only [List.replicate_succ, listDot, List.zipWith_cons_cons, List.sum_cons,
        mul_zero, zero_add]
      exact ih m

/-- With the QP bypassed, `forward1` returns the learned control and relaxation 0. -/
theorem forward1_use_QP_false {n nh : ℕ} {S : Type} (net : CLF_K_QP_Net n nh S)
    (qpSol : QPInputs → List ℝ × List ℝ) (x : Fin n → ℝ)
    (h : net.use_QP = false) :
    (forward1 net qpSol x).1 = compute_controls net x ∧
      (forward1 net qpSol x).2.1 = 0 := by
  have hz : ((net.scenarios.map (fun _ => (0 : ℝ))).sum : ℝ) = 0 := by
    rw [List.sum_eq_zero]
    intro y hy
    rcases List.mem_map.mp hy with ⟨s, _, rfl⟩
    rfl
  constructor
  · simp [forward1, h]
  · simp [forward1, h, hz]

/-- C7: for every weight setting and every state, the Lyapunov value returned by
`compute_lyapunov` is nonnegative, being half the squared norm of the second layer's
activated output. -/
theorem C7_lyapunov_value_nonneg {n nh : ℕ} (w : VWeights n nh) (x : Fin n → ℝ) :
    0 ≤ (compute_lyapunov w x).1 := by
  have h : (compute_lyapunov w x).1 = 0.5 * ∑ k, Vfc2_act w x k * Vfc2_act w x k := rfl
  rw [h]
  have hs : 0 ≤ ∑ k, Vfc2_act w x k * Vfc2_act w x k :=
    Finset.sum_nonneg fun k _ => mul_self_nonneg _
  have : (0 : ℝ) ≤ 0.5 := by norm_num
  exact mul_nonneg this hs

/-- C10: the gain matrix stacked by `compute_controls` has exactly two rows (one per
hard-coded gain sub-network), so the learned control output has dimension 2 for every
value of the `n_controls` attribute, and it matches `n_controls` exactly when
`n_controls = 2`. -/
theorem C10_gain_matrix_two_rows {n nh : ℕ} {S : Type} (net : CLF_K_QP_Net n nh S)
    (x : Fin n → ℝ) :
    (Kmat net x).length = 2 ∧ (compute_controls net x).length = 2 ∧
      ((compute_controls net x).length = net.n_controls ↔ net.n_controls = 2) := by
  refine ⟨rfl, ?_, ?_⟩
  · simp [compute_controls, Kmat]
  · simp only [compute_controls, Kmat, List.length_zipWith, List.length_cons,
      List.length_nil]
    constructor
    · intro hn
      omega
    · intro hn
      omega

/-- C9: the diagnostic `print_loss` mode never alters the scalar returned by
`lyapunov_loss` or by `controller_loss`. -/
theorem C9_print_loss_pure {n nh : ℕ} {S : Type} (net : CLF_K_QP_Net n nh S)
    (qpSol : QPInputs → List ℝ × List ℝ) (xs xgoal : List (Fin n → ℝ))
    (safe_mask unsafe_mask : List Bool) (clf_lambda safe_level timestep : ℝ) :
    lyapunov_loss net qpSol xs xgoal safe_mask unsafe_mask clf_lambda safe_level
        timestep true =
      lyapunov_loss net qpSol xs xgoal safe_mask unsafe_mask clf_lambda safe_level
        timestep false ∧
    ∀ (use_nominal : Bool) (use_eq : Option (List (Fin n → ℝ))) (loss_coeff : ℝ),
      controller_loss net qpSol xs true use_nominal use_eq loss_coeff =
        controller_loss net qpSol xs false use_nominal use_eq loss_coeff :=
  ⟨rfl, fun _ _ _ => rfl⟩

/-- C1: the annealing schedule writes the attribute `relaxation_penalty`, but
`forward` binds `self.clf_relaxation_penalty` to the QP layer; so at every epoch the
penalty bound in forward passes is still the initial value, while the intended
schedule value `relaxation_penalty * 2 ** (epoch // 2)` sits in the unread attribute.
At epoch 2 they differ (10 versus 20). -/
theorem C1_forward_penalty_never_annealed :
    (∀ e : ℕ, penaltyBoundInForward (netAttrsDuringEpoch e) = relaxation_penalty_init) ∧
    (netAttrsDuringEpoch 2).relaxation_penalty =
      some (relaxation_penalty_init * 2 ^ (2 / 2)) ∧
    penaltyBoundInForward (netAttrsDuringEpoch 2) ≠
      relaxation_penalty_init * 2 ^ (2 / 2) := by
  have hall : ∀ e : ℕ,
      penaltyBoundInForward (netAttrsDuringEpoch e) = relaxation_penalty_init := by
    intro e
    induction e with
    | zero => rfl
    | succ e ih =>
      simpa [netAttrsDuringEpoch, adjust_relaxation_penalty,
        penaltyBoundInForward] using ih
  refine ⟨hall, rfl, ?_⟩
  rw [hall 2]
  simp only [relaxation_penalty_init]
  norm_num

/-- C6 counterexample: at epoch 0 the held-out evaluation does not run with the QP
enabled — the script set `use_QP = False` before the loop and never re-enables it. -/
theorem C6_counterexample_qp_disabled :
    ¬ ((netAttrsDuringEpoch 0).use_QP = true ∧ testEvalPrintLoss = true) := by
  intro h
  have h0 : (netAttrsDuringEpoch 0).use_QP = false := rfl
  rw [h0] at h
  exact absurd h.1 (by simp)

/-- C6 (amended): at every epoch the held-out evaluation runs with diagnostic
printing on but with the QP disabled (`use_QP = False`, as set by the script before
the training loop and never re-enabled). -/
theorem C6_eval_diagnostics_on_qp_off :
    ∀ e : ℕ, (netAttrsDuringEpoch e).use_QP = false ∧ testEvalPrintLoss = true := by
  intro e
  refine ⟨?_, rfl⟩
  induction e with
  | zero => rfl
  | succ e ih =>
    simpa [netAttrsDuringEpoch, adjust_relaxation_penalty] using ih

/-- C3: with `use_QP = False`, `forward` returns exactly the learned controller output
`compute_controls(x)` for every batch element, and every returned relaxation is
exactly zero. -/
theorem C3_no_qp_passthrough {n nh : ℕ} {S : Type} (net : CLF_K_QP_Net n nh S)
    (qpSol : QPInputs → List ℝ × List ℝ) (xs : List (Fin n → ℝ))
    (h : net.use_QP = false) :
    (forward net qpSol xs).map (fun t => t.1) =
        xs.map (fun x => compute_controls net x) ∧
      ∀ t ∈ forward net qpSol xs, t.2.1 = 0 := by
  constructor
  · rw [forward, List.map_map]
    apply List.map_congr_left
    intro x _
    exact (forward1_use_QP_false net qpSol x h).1
  · intro t ht
    rcases List.mem_map.mp ht with ⟨x, _, rfl⟩
    exact (forward1_use_QP_false net qpSol x h).2

/-- C3 witness: the concrete QP-bypassed network on the probe batch. -/
theorem C3_no_qp_passthrough_witness :
    cNetNoQP.use_QP = false ∧
      ((forward cNetNoQP cQpSol [cx]).map (fun t => t.1) =
          [cx].map (fun x => compute_controls cNetNoQP x) ∧
        ∀ t ∈ forward cNetNoQP cQpSol [cx], t.2.1 = 0) :=
  ⟨rfl, C3_no_qp_passthrough cNetNoQP cQpSol [cx] rfl⟩

/-- `getD` through `map` at an in-range index. -/
theorem getD_map_of_lt (f : ℝ → ℝ) (l : List ℝ) (i : ℕ) (hi : i < l.length) :
    (l.map f).getD i 0 = f (l.getD i 0) := by
  induction l generalizing i with
  | nil => simp at hi
  | cons a t ih =>
    cases i with
    | zero => simp
    | succ i =>
      simp only [List.map_cons, List.getD_cons_succ]
      exact ih i (by simpa using hi)

/-- C2 counterexample: with one scenario, `lambda = 0.1` and `V = 0`, taking
`L_f V = -1` makes the claimed feasible point `u = 0`, `r = L_f V + lambda * V = -1`
violate the constraint `r >= 0`. -/
theorem C2_counterexample_negative_relaxation :
    ¬ qpConstraintsOk 0.1 [] [] [-1] [[0, 0]] 0 (List.replicate 2 0)
        ([(-1 : ℝ)].map (fun lf => lf + 0.1 * 0)) := by
  intro h
  have h0 := (h.1 0 (by norm_num)).2
  norm_num [List.getD] at h0

/-- C2 (amended): for every parameter assignment (`V >= 0`, nonnegative penalty, no
control-bound matrix), the point `u = 0`, `r_s = max 0 (L_f V_s + lambda * V)`
satisfies every constraint of the relaxed CLF-QP, so the QP is always feasible and
the infeasibility branch is unreachable. -/
theorem C2_relaxed_qp_always_feasible (lam V penalty : ℝ) (LfVs : List ℝ)
    (LgVs : List (List ℝ)) (uNomTarget : List ℝ) (m : ℕ)
    (hV : 0 ≤ V) (hpen : 0 ≤ penalty) :
    qpConstraintsOk lam [] [] LfVs LgVs V (List.replicate m 0)
      (LfVs.map (fun lf => max 0 (lf + lam * V))) := by
  constructor
  · intro i hi
    have hdot : listDot (LgVs.getD i []) (List.replicate m 0) = 0 :=
      listDot_replicate_zero _ m
    have hmap : (LfVs.map (fun lf => max 0 (lf + lam * V))).getD i 0 =
        max 0 (LfVs.getD i 0 + lam * V) :=
      getD_map_of_lt _ LfVs i hi
    rw [hdot, hmap]
    constructor
    · have hle := le_max_right 0 (LfVs.getD i 0 + lam * V)
      linarith
    · exact le_max_left _ _
  · intro hne
    exact absurd rfl hne

/-- C2 witness: a concrete parameter assignment fed to the amended feasibility
statement. -/
theorem C2_relaxed_qp_always_feasible_witness :
    (0 : ℝ) ≤ 1 ∧ (0 : ℝ) ≤ 2 ∧
      qpConstraintsOk 0.1 [] [] [-1, 3] [[0, 0], [1, 2]] 1 (List.replicate 2 0)
        ([-1, 3].map (fun lf => max 0 (lf + 0.1 * 1))) :=
  ⟨by norm_num, by norm_num,
    C2_relaxed_qp_always_feasible 0.1 1 2 [-1, 3] [[0, 0], [1, 2]] [0, 0] 2
      (by norm_num) (by norm_num)⟩

/-- C8: construction fails with an error — before any training step could run —
exactly when the scenario list is empty, when `G_u` and `h_u` have different row
counts, or when the assembled problem fails the DPP check; past these checks it
succeeds and returns the constructed network. -/
theorem C8_init_checks {n nh : ℕ} {S : Type}
    (dynamics : S → (Fin n → ℝ) → (Fin n → ℝ) × List (Fin n → ℝ))
    (u_nominal : S → (Fin n → ℝ) → List ℝ)
    (scenarios : List S) (nominal_scenario : S) (x_goal : Fin n → ℝ)
    (u_eq : Fin 2 → ℝ) (vW : VWeights n nh) (kW : KWeights n nh) (n_controls : ℕ)
    (clf_lambda clf_relaxation_penalty : ℝ) (G_u : List (List ℝ)) (h_u : List ℝ)
    (is_dpp : Bool) :
    ((∃ e, CLF_K_QP_Net.init dynamics u_nominal scenarios nominal_scenario x_goal
        u_eq vW kW n_controls clf_lambda clf_relaxation_penalty G_u h_u is_dpp =
          .error e) ↔
      (scenarios = [] ∨ G_u.length ≠ h_u.length ∨ is_dpp = false)) ∧
    (scenarios ≠ [] → G_u.length = h_u.length → is_dpp = true →
      ∃ net, CLF_K_QP_Net.init dynamics u_nominal scenarios nominal_scenario x_goal
        u_eq vW kW n_controls clf_lambda clf_relaxation_penalty G_u h_u is_dpp =
          .ok net ∧ net.use_QP = true ∧ net.scenarios = scenarios) := by
  unfold CLF_K_QP_Net.init
  split_ifs with h1 h2 h3
  · refine ⟨⟨fun _ => Or.inl (List.isEmpty_iff.mp h1), fun _ => ⟨_, rfl⟩⟩, ?_⟩
    intro hne _ _
    exact absurd (List.isEmpty_iff.mp h1) hne
  · refine ⟨⟨fun _ => Or.inr (Or.inl h2), fun _ => ⟨_, rfl⟩⟩, ?_⟩
    intro _ heq _
    exact absurd heq h2
  · refine ⟨⟨fun _ => Or.inr (Or.inr h3), fun _ => ⟨_, rfl⟩⟩, ?_⟩
    intro _ _ htrue
    rw [htrue] at h3
    exact absurd h3 (by simp)
  · constructor
    · constructor
      · intro he
        rcases he with ⟨e, he⟩
        exact absurd he (by simp)
      · intro hc
        rcases hc with hc | hc | hc
        · exact absurd (List.isEmpty_iff.mpr hc) h1
        · exact absurd hc h2
        · exact absurd hc h3
    · intro _ _ _
      exact ⟨_, rfl, rfl, rfl⟩

/-- C8 witness: a concrete construction that passes all three checks. -/
theorem C8_init_checks_witness :
    ([()] : List Unit) ≠ [] ∧ ([] : List (List ℝ)).length = ([] : List ℝ).length ∧
      ∃ net, CLF_K_QP_Net.init cNet.dynamics cNet.u_nominal [()] () cNet.x_goal
        cNet.u_eq cV cK 2 0 4 [] [] true = .ok net ∧ net.use_QP = true ∧
          net.scenarios = [()] :=
  ⟨by simp, rfl,
    (C8_init_checks cNet.dynamics cNet.u_nominal [()] () cNet.x_goal cNet.u_eq cV cK
      2 0 4 [] [] true).2 (by simp) rfl rfl⟩

/-- The derivative of `Real.tanh` at `y` is `1 - tanh y ^ 2`, i.e. `d_tanh_dx`
applied to the activated output. -/
theorem tanh_hasDerivAt (y : ℝ) :
    HasDerivAt Real.tanh (d_tanh_dx (Real.tanh y)) y := by
  have hc : Real.cosh y ≠ 0 := (Real.cosh_pos y).ne'
  have h := (Real.hasDerivAt_sinh y).div (Real.hasDerivAt_cosh y) hc
  have heq : (fun z => Real.sinh z / Real.cosh z) = Real.tanh := by
    funext z
    exact (Real.tanh_eq_sinh_div_cosh z).symm
  rw [heq] at h
  convert h using 1
  have hid := Real.cosh_sq_sub_sinh_sq y
  rw [d_tanh_dx, Real.tanh_eq_sinh_div_cosh]
  field_simp
  nlinarith [hid]

/-- C4: the analytic gradient returned by `compute_lyapunov` is the true derivative
of the returned value: for every weight setting, every state `x`, and every
coordinate `j`, the map `t ↦ V(x with coordinate j replaced by t)` has derivative
`grad_V x j` (the chain-rule composition through the two tanh layers) at `x j`. -/
theorem C4_grad_V_is_derivative {n nh : ℕ} (w : VWeights n nh) (x : Fin n → ℝ)
    (j : Fin n) :
    HasDerivAt (fun t => (compute_lyapunov w (Function.update x j t)).1)
      ((compute_lyapunov w x).2 j) (x j) := by
  show HasDerivAt (fun t => lyapV w (Function.update x j t)) (grad_V w x j) (x j)
  have hpre1 : ∀ i : Fin nh,
      HasDerivAt (fun t => (∑ jp, w.W1 i jp * Function.update x j t jp) + w.b1 i)
        (w.W1 i j) (x j) := by
    intro i
    have hsum : HasDerivAt (fun t => ∑ jp, w.W1 i jp * Function.update x j t jp)
        (∑ jp, if jp = j then w.W1 i jp else 0) (x j) := by
      apply HasDerivAt.sum
      intro jp _
      by_cases hj : jp = j
      · subst hj
        have hfn : (fun t => w.W1 i jp * Function.update x jp t jp) =
            (fun t => w.W1 i jp * t) := by
          funext t
          rw [Function.update_same]
        rw [hfn, if_pos rfl]
        simpa using (hasDerivAt_id (x jp)).const_mul (w.W1 i jp)
      · have hfn : (fun t => w.W1 i jp * Function.update x j t jp) =
            (fun _ => w.W1 i jp * x jp) := by
          funext t
          rw [Function.update_noteq hj]
        rw [hfn, if_neg hj]
        exact hasDerivAt_const _ _
    have h := hsum.add_const (w.b1 i)
    convert h using 1
    rw [Finset.sum_ite_eq' Finset.univ j (fun jp => w.W1 i jp)]
    simp
  have hH1 : ∀ i : Fin nh,
      HasDerivAt (fun t => Vfc1_act w (Function.update x j t) i)
        (d_tanh_dx (Vfc1_act w x i) * w.W1 i j) (x j) := by
    intro i
    have h := (tanh_hasDerivAt
      ((∑ jp, w.W1 i jp * Function.update x j (x j) jp) + w.b1 i)).comp (x j) (hpre1 i)
    simp only [Function.update_eq_self] at h
    exact h
  have hpre2 : ∀ k : Fin nh,
      HasDerivAt
        (fun t => (∑ i, w.W2 k i * Vfc1_act w (Function.update x j t) i) + w.b2 k)
        (∑ i, w.W2 k i * (d_tanh_dx (Vfc1_act w x i) * w.W1 i j)) (x j) := by
    intro k
    apply HasDerivAt.add_const
    apply HasDerivAt.sum
    intro i _
    exact (hH1 i).const_mul (w.W2 k i)
  have hH2 : ∀ k : Fin nh,
      HasDerivAt (fun t => Vfc2_act w (Function.update x j t) k)
        (d_tanh_dx (Vfc2_act w x k) *
          ∑ i, w.W2 k i * (d_tanh_dx (Vfc1_act w x i) * w.W1 i j)) (x j) := by
    intro k
    have h := (tanh_hasDerivAt
      ((∑ i, w.W2 k i * Vfc1_act w (Function.update x j (x j)) i) + w.b2 k)).comp
        (x j) (hpre2 k)
    simp only [Function.update_eq_self] at h
    exact h
  have hV : HasDerivAt
      (fun t => 0.5 * ∑ k, Vfc2_act w (Function.update x j t) k *
        Vfc2_act w (Function.update x j t) k)
      (0.5 * ∑ k,
        ((d_tanh_dx (Vfc2_act w x k) *
            ∑ i, w.W2 k i * (d_tanh_dx (Vfc1_act w x i) * w.W1 i j)) *
          Vfc2_act w x k +
        Vfc2_act w x k *
          (d_tanh_dx (Vfc2_act w x k) *
            ∑ i, w.W2 k i * (d_tanh_dx (Vfc1_act w x i) * w.W1 i j)))) (x j) := by
    apply HasDerivAt.const_mul
    apply HasDerivAt.sum
    intro k _
    have h := (hH2 k).mul (hH2 k)
    simp only [Function.update_eq_self] at h
    exact h
  have hgoal : grad_V w x j = 0.5 * ∑ k,
      ((d_tanh_dx (Vfc2_act w x k) *
          ∑ i, w.W2 k i * (d_tanh_dx (Vfc1_act w x i) * w.W1 i j)) *
        Vfc2_act w x k +
      Vfc2_act w x k *
        (d_tanh_dx (Vfc2_act w x k) *
          ∑ i, w.W2 k i * (d_tanh_dx (Vfc1_act w x i) * w.W1 i j))) := by
    rw [grad_V, Finset.mul_sum]
    apply Finset.sum_congr rfl
    intro k _
    have hD : DVfc2_act w x k j = d_tanh_dx (Vfc2_act w x k) *
        ∑ i, w.W2 k i * (d_tanh_dx (Vfc1_act w x i) * w.W1 i j) := by
      rw [DVfc2_act, Finset.mul_sum]
      apply Finset.sum_congr rfl
      intro i _
      rw [DVfc1_act]
      ring
    rw [hD]
    ring
  rw [hgoal]
  exact hV

theorem tanh_one_pos : 0 < Real.tanh 1 := by
  rw [Real.tanh_eq_sinh_div_cosh]
  exact div_pos (Real.sinh_pos_iff.mpr one_pos) (Real.cosh_pos 1)

theorem tanh_one_lt_one : Real.tanh 1 < 1 := by
  rw [Real.tanh_eq_sinh_div_cosh, div_lt_one (Real.cosh_pos 1)]
  exact Real.sinh_lt_cosh 1

theorem cGamma_pos : 0 < cGamma := by
  have h1 := tanh_one_pos
  have h2 := tanh_one_lt_one
  have h3 : 0 < 1 - Real.tanh 1 ^ 2 := by nlinarith
  exact mul_pos h1 h3

/-- Evaluation of the first Lyapunov layer of `cV` at the probe state. -/
theorem Vfc1_act_cV (i : Fin 1) : Vfc1_act cV cx i = 0 := by
  simp [Vfc1_act, cV, cx, Real.tanh_zero]

/-- Evaluation of the second Lyapunov layer of `cV` at the probe state. -/
theorem Vfc2_act_cV (k : Fin 1) : Vfc2_act cV cx k = Real.tanh 1 := by
  rw [Vfc2_act, Fin.sum_univ_one, Vfc1_act_cV]
  norm_num [cV]

/-- The analytic gradient of `cV` at the probe state is the constant `cGamma`. -/
theorem grad_V_cV (j : Fin 1) : grad_V cV cx j = cGamma := by
  rw [grad_V, Fin.sum_univ_one, DVfc2_act, Fin.sum_univ_one, DVfc1_act,
    Vfc1_act_cV, Vfc2_act_cV, d_tanh_dx, d_tanh_dx, cGamma]
  norm_num [cV]

/-- The learned controller of `cNet` (zero gains) outputs the equilibrium control. -/
theorem compute_controls_cNet : compute_controls cNet cx = [1, 0] := by
  simp [compute_controls, Kmat, K1row, K2row, cNet, cK, cx]

/-- The Lie-derivative parameters `forward` binds on `cNet` at the probe state:
`L_f V = [0]` (zero drift) and `L_g V = [[1, 0]]` (columns scaled by `cGamma⁻¹`). -/
theorem cNet_bound_lie_derivatives :
    cNet.scenarios.map
      (fun s => ∑ j, grad_V cNet.vW cx j * (cNet.dynamics s cx).1 j) = [0] ∧
    cNet.scenarios.map (fun s => (cNet.dynamics s cx).2.map
      (fun col => ∑ j, grad_V cNet.vW cx j * col j)) = [[1, 0]] := by
  constructor
  · simp [cNet]
  · simp only [cNet, List.map_cons, List.map_nil, Fin.sum_univ_one, grad_V_cV]
    rw [mul_inv_cancel₀ cGamma_pos.ne', mul_zero]

/-- `cQpSol` returns the optimum of `cNet`'s QP instance at the probe state: for the
bound parameters (`L_f V = [0]`, `L_g V = [[1, 0]]`, `u_nominal = [1, 0]`,
penalty `4`, `lambda = 0`), the point `u = (0, 0)`, `r = 0` is feasible and
minimizes the objective over all feasible points. -/
theorem cQpSol_optimal :
    qpConstraintsOk 0 [] [] [0] [[1, 0]] (lyapV cV cx) [0, 0] [0] ∧
    (∀ u1 u2 r : ℝ,
      qpConstraintsOk 0 [] [] [0] [[1, 0]] (lyapV cV cx) [u1, u2] [r] →
        qpObjective [1, 0] 4 [0, 0] [0] ≤ qpObjective [1, 0] 4 [u1, u2] [r]) ∧
    ∀ u1 u2 r : ℝ,
      qpConstraintsOk 0 [] [] [0] [[1, 0]] (lyapV cV cx) [u1, u2] [r] →
        qpObjective [1, 0] 4 [u1, u2] [r] = qpObjective [1, 0] 4 [0, 0] [0] →
          u1 = 0 ∧ u2 = 0 ∧ r = 0 := by
  constructor
  · constructor
    · intro i hi
      have h0 : i = 0 := by
        simp only [List.length_cons, List.length_nil] at hi
        omega
      subst h0
      norm_num [List.getD, listDot]
    · intro hne
      exact absurd rfl hne
  constructor
  · intro u1 u2 r hfeas
    have h0 := hfeas.1 0 (by norm_num)
    norm_num [List.getD, listDot] at h0
    norm_num [qpObjective, List.getD]
    nlinarith [h0.1, h0.2, sq_nonneg u1, sq_nonneg u2]
  · intro u1 u2 r hfeas heq
    have h0 := hfeas.1 0 (by norm_num)
    norm_num [List.getD, listDot] at h0
    norm_num [qpObjective, List.getD] at heq
    refine ⟨?_, ?_, ?_⟩
    · nlinarith [h0.1, h0.2, sq_nonneg u1, sq_nonneg u2, heq]
    · nlinarith [h0.1, h0.2, sq_nonneg u1, sq_nonneg u2, heq]
    · nlinarith [h0.1, h0.2, sq_nonneg u1, sq_nonneg u2, heq]

/-- C5 counterexample: on `cNet` (QP enabled) at the probe state, `controller_loss`
with `use_nominal=True` and unit coefficient returns 1 — the squared deviation of
the QP-filtered control `(0, 0)` from the oracle nominal `(1, 0)` — while the
claim's formula (deviation of the `compute_controls` candidate from the oracle
nominal) evaluates to 0. -/
theorem C5_counterexample_qp_filters_control :
    controller_loss cNet cQpSol [cx] false true none 1 ≠
      1 * mean ([cx].map (fun x => (List.zipWith (fun a b => (a - b) ^ 2)
        (cNet.u_nominal cNet.nominal_scenario x) (compute_controls cNet x)).sum)) := by
  have hL : controller_loss cNet cQpSol [cx] false true none 1 = 1 := by
    have hfwd : (forward1 cNet cQpSol cx).1 = [0, 0] := by
      simp [forward1, cQpSol, cNet]
    have hunom : cNet.u_nominal cNet.nominal_scenario cx = [1, 0] := rfl
    simp only [controller_loss, forward, List.map_cons, List.map_nil, hfwd,
      if_true, hunom, List.zipWith_cons_cons, List.zipWith_nil_right,
      List.zipWith_nil_left, List.sum_cons, List.sum_nil, mean, List.length_cons,
      List.length_nil]
    norm_num
  have hR : ([cx].map (fun x => (List.zipWith (fun a b => (a - b) ^ 2)
      (cNet.u_nominal cNet.nominal_scenario x) (compute_controls cNet x)).sum)) =
        [0] := by
    have hunom : cNet.u_nominal cNet.nominal_scenario cx = [1, 0] := rfl
    simp only [List.map_cons, List.map_nil, compute_controls_cNet, hunom,
      List.zipWith_cons_cons, List.zipWith_nil_right, List.zipWith_nil_left,
      List.sum_cons, List.sum_nil]
    norm_num
  rw [hL, hR]
  norm_num [mean]

/-- Zipping a list against its own image collapses to a single map. -/
theorem zipWith_map_right_self {α β γ : Type} (f : α → β → γ) (g : α → β)
    (l : List α) : List.zipWith f l (l.map g) = l.map (fun a => f a (g a)) := by
  induction l with
  | nil => rfl
  | cons a t ih => simp [ih]

/-- The batched control outputs of `forward` with the QP bypassed. -/
theorem forward_fst_use_QP_false {n nh : ℕ} {S : Type} (net : CLF_K_QP_Net n nh S)
    (qpSol : QPInputs → List ℝ × List ℝ) (xs : List (Fin n → ℝ))
    (h : net.use_QP = false) :
    (forward net qpSol xs).map (fun t => t.1) =
      xs.map (fun x => compute_controls net x) := by
  rw [forward, List.map_map]
  apply List.map_congr_left
  intro x _
  exact (forward1_use_QP_false net qpSol x h).1

/-- The mean of a list scaled pointwise by a constant. -/
theorem mean_map_mul_left {α : Type} (c : ℝ) (f : α → ℝ) (l : List α) :
    mean (l.map (fun a => c * f a)) = c * mean (l.map f) := by
  unfold mean
  rw [show (l.map fun a => c * f a) = ((l.map f).map fun b => c * b) by
    rw [List.map_map]; rfl]
  rw [show ((l.map f).map fun b => c * b) = ((l.map f).map fun b => c * id b) by rfl]
  rw [List.sum_map_mul_left, List.length_map, List.length_map]
  simp [mul_div_assoc, List.map_id]

/-- C5 (amended): for every state batch and every network with the QP bypassed
(`use_QP = False`, as in the training script), `controller_loss` with
`use_nominal=True` and coefficient `c` equals `c` times the batch mean of the
squared deviation between the learned candidate `compute_controls(x)` and the
oracle's nominal controller under the nominal scenario. -/
theorem C5_controller_loss_vs_nominal {n nh : ℕ} {S : Type}
    (net : CLF_K_QP_Net n nh S) (qpSol : QPInputs → List ℝ × List ℝ)
    (xs : List (Fin n → ℝ)) (c : ℝ) (h : net.use_QP = false) :
    controller_loss net qpSol xs false true none c =
      c * mean (xs.map (fun x => (List.zipWith (fun a b => (a - b) ^ 2)
        (net.u_nominal net.nominal_scenario x) (compute_controls net x)).sum)) := by
  unfold controller_loss
  simp only [if_true, Bool.true_eq_false]
  rw [forward_fst_use_QP_false net qpSol xs h]
  rw [zipWith_map_right_self]
  rw [show (xs.map fun x => c * (List.zipWith (fun a b => (a - b) ^ 2)
      (net.u_nominal net.nominal_scenario x) (compute_controls net x)).sum) =
    (xs.map fun x => c * ((fun y => (List.zipWith (fun a b => (a - b) ^ 2)
      (net.u_nominal net.nominal_scenario y) (compute_controls net y)).sum) x))
    by rfl]
  rw [mean_map_mul_left]

/-- C5 amended-claim witness: the concrete QP-bypassed network on the probe batch. -/
theorem C5_controller_loss_vs_nominal_witness :
    cNetNoQP.use_QP = false ∧
      controller_loss cNetNoQP cQpSol [cx] false true none 1 =
        1 * mean ([cx].map (fun x => (List.zipWith (fun a b => (a - b) ^ 2)
          (cNetNoQP.u_nominal cNetNoQP.nominal_scenario x)
          (compute_controls cNetNoQP x)).sum)) :=
  ⟨rfl, C5_controller_loss_vs_nominal cNetNoQP cQpSol [cx] 1 rfl⟩

end NeuralCLF
